import Mathlib

/-!
Verification development for the TaskMaster repository.

Shallow embedding of the components covered by the specification:
the WebSocket connection registry (`app/services/websocket_service.py`),
the notification dispatcher (`app/services/notification_service.py`,
`app/crud/notification.py`), the activity-log service
(`app/services/activity_service.py`), the task and team services
(`app/services/task_service.py`, `app/services/team_service.py`) and the
task listing query (`app/crud/task.py`), together with the WebSocket
endpoint establishment phase (`app/api/v1/websocket.py`).

Modelling conventions: UUIDs are modelled as `Nat`; datetimes as `Nat`;
SQLAlchemy sessions become an explicit `DB` record threaded through the
services; a raised Python exception becomes `Except.error`; the success
or failure of a WebSocket `send_text` call is an environment parameter
`sendOk : HandleId → Bool`; whether a database flush inside the
activity-log write raises is the environment flag `log_write_fails`.
-/

namespace TaskMaster

/-- Role column of the users table: Enum("user", "admin"). -/
inductive UserRole where
  | user
  | admin
  deriving DecidableEq, Repr

/-- Role column of the team_members table: Enum("member", "manager"). -/
inductive MemberRole where
  | member
  | manager
  deriving DecidableEq, Repr

/-- Task.status: "pending" | "in_progress" | "completed" | "cancelled". -/
inductive TaskStatus where
  | pending
  | in_progress
  | completed
  | cancelled
  deriving DecidableEq, Repr

/-- Task.priority: "low" | "medium" | "high" | "critical". -/
inductive TaskPriority where
  | low
  | medium
  | high
  | critical
  deriving DecidableEq, Repr

/-- Projection of the User ORM model onto the fields the services read. -/
structure User where
  id : Nat
  username : String
  role : UserRole
  deriving DecidableEq, Repr

/-- Projection of the Team ORM model (id, name, owner_id). -/
structure Team where
  id : Nat
  name : String
  owner_id : Nat
  deriving DecidableEq, Repr

/-- A row of the team_members association table. -/
structure TeamMember where
  team_id : Nat
  user_id : Nat
  role : MemberRole
  deriving DecidableEq, Repr

/-- Projection of the Task ORM model onto the fields the services read. -/
structure Task where
  id : Nat
  title : String
  description : Option String
  status : TaskStatus
  priority : TaskPriority
  due_date : Option Nat
  owner_id : Nat
  assigned_to_id : Option Nat
  team_id : Option Nat
  is_archived : Bool
  created_at : Nat
  deriving DecidableEq, Repr

/-- A row of the notifications table.  `is_read` defaults to false on
creation (model column default). -/
structure Notification where
  id : Nat
  user_id : Nat
  message : String
  type : String
  reference_id : Option Nat
  is_read : Bool
  deriving DecidableEq, Repr

/-- A row of the activity_logs table (meta payload omitted — no claim
reads it). -/
structure ActivityLog where
  user_id : Nat
  action : String
  entity_type : String
  entity_id : Nat
  deriving DecidableEq, Repr

/-- The persistent store visible to the services.  `next_id` models the
id generator for newly created notification rows. -/
structure DB where
  users : List User
  teams : List Team
  team_members : List TeamMember
  tasks : List Task
  notifications : List Notification
  activity_logs : List ActivityLog
  next_id : Nat
  deriving DecidableEq, Repr

/-- Domain exceptions from `app/core/exceptions.py` (the three kinds the
modelled services raise). -/
inductive AppError where
  | notFound (resource : String)
  | forbidden (detail : String)
  | conflict (detail : String)
  deriving DecidableEq, Repr

/-- What a service call can propagate to its caller: a domain exception,
or a non-domain exception (e.g. a database flush failure re-raised by the
activity-log writer). -/
inductive Raised where
  | app (e : AppError)
  | other
  deriving DecidableEq, Repr

-- ── CRUD layer ────────────────────────────────────────────────────────────

/-- CRUDBase.get for teams: select by primary key. -/
def getTeam (db : DB) (team_id : Nat) : Option Team :=
  db.teams.find? (fun t => t.id == team_id)

/-- CRUDBase.get for users. -/
def getUser (db : DB) (user_id : Nat) : Option User :=
  db.users.find? (fun u => u.id == user_id)

/-- CRUDTask.get_with_relations, projected to the row itself. -/
def getTask (db : DB) (task_id : Nat) : Option Task :=
  db.tasks.find? (fun t => t.id == task_id)

/-- CRUDTeam.get_member: select the membership row for (team_id, user_id). -/
def get_member (db : DB) (team_id user_id : Nat) : Option TeamMember :=
  db.team_members.find? (fun m => m.team_id == team_id && m.user_id == user_id)

/-- CRUDTeam.add_member: insert a membership row. -/
def add_member_row (db : DB) (team_id user_id : Nat) (role : MemberRole) :
    TeamMember × DB :=
  let m : TeamMember := ⟨team_id, user_id, role⟩
  (m, { db with team_members := db.team_members ++ [m] })

/-- CRUDTeam.remove_member: delete the membership row if present.
(team_id, user_id) is the table primary key, so deleting the row is
removing every matching entry. -/
def remove_member_row (db : DB) (team_id user_id : Nat) :
    Option TeamMember × DB :=
  match get_member db team_id user_id with
  | none => (none, db)
  | some m =>
      let kept :=
        db.team_members.filter
          (fun x => !(x.team_id == team_id && x.user_id == user_id))
      (some m, { db with team_members := kept })

/-- CRUDTeam.get_user_team_ids: ids of all teams where the user is the
owner or holds a membership row ("Return all team IDs the user belongs to
(as owner or member)"). -/
def get_user_team_ids (db : DB) (user_id : Nat) : List Nat :=
  (db.teams.filter
      (fun t => t.owner_id == user_id ||
        db.team_members.any (fun m => m.team_id == t.id && m.user_id == user_id))).map
    (fun t => t.id)

/-- CRUDNotification.create_notification: insert a row with
`is_read = false` (column default) and return it. -/
def create_notification (db : DB) (user_id : Nat) (message ntype : String)
    (reference_id : Option Nat) : Notification × DB :=
  let n : Notification :=
    { id := db.next_id, user_id := user_id, message := message, type := ntype,
      reference_id := reference_id, is_read := false }
  (n, { db with notifications := db.notifications ++ [n], next_id := db.next_id + 1 })

-- ── Connection registry (websocket_service.py ConnectionManager) ──────────

/-- An open WebSocket handle, identified by a number. -/
abbrev HandleId := Nat

/-- ConnectionManager._connections: user id → list of live handles. -/
structure ConnectionManager where
  connections : List (Nat × List HandleId)
  deriving DecidableEq, Repr

namespace ConnectionManager

/-- Dictionary lookup `self._connections.get(user_id)`. -/
def lookup (cm : ConnectionManager) (uid : Nat) : Option (List HandleId) :=
  (cm.connections.find? (fun p => p.1 == uid)).map (fun p => p.2)

/-- ConnectionManager.connect: ensure an entry exists for `uid`, then
append the handle to its list. -/
def connect (cm : ConnectionManager) (ws : HandleId) (uid : Nat) :
    ConnectionManager :=
  let base :=
    if cm.connections.any (fun p => p.1 == uid) then cm.connections
    else cm.connections ++ [(uid, ([] : List HandleId))]
  ⟨base.map (fun p => if p.1 == uid then (p.1, p.2 ++ [ws]) else p)⟩

/-- ConnectionManager.disconnect: remove the first occurrence of the
handle from the list (list.remove; absence is a swallowed ValueError),
and delete the entry entirely if the list becomes empty. -/
def disconnect (cm : ConnectionManager) (ws : HandleId) (uid : Nat) :
    ConnectionManager :=
  match cm.lookup uid with
  | none => cm
  | some l =>
      let l2 := l.erase ws
      if l2.isEmpty then
        ⟨cm.connections.filter (fun p => !(p.1 == uid))⟩
      else
        ⟨cm.connections.map (fun p => if p.1 == uid then (p.1, l2) else p)⟩

/-- ConnectionManager.is_connected:
`user_id in self._connections and bool(self._connections[user_id])`. -/
def is_connected (cm : ConnectionManager) (uid : Nat) : Bool :=
  match cm.lookup uid with
  | some l => !l.isEmpty
  | none => false

/-- ConnectionManager.send_personal_message.  `sendOk` tells whether the
`send_text` on a given handle succeeds; handles whose send raises are
collected in `dead` and disconnected afterwards.  The second component is
the list of handles to which a send was attempted (all of them).  The
function is total: every exception of the underlying send is caught. -/
def send_personal_message (cm : ConnectionManager) (sendOk : HandleId → Bool)
    (uid : Nat) : ConnectionManager × List HandleId :=
  let conns := (cm.lookup uid).getD []
  if conns.isEmpty then (cm, [])
  else
    let dead := conns.filter (fun ws => !sendOk ws)
    (dead.foldl (fun c ws => c.disconnect ws uid) cm, conns)

/-- ConnectionManager.broadcast: attempt a send on every handle of every
user, then disconnect every dead (ws, user) pair. -/
def broadcast (cm : ConnectionManager) (sendOk : HandleId → Bool) :
    ConnectionManager :=
  let all_dead :=
    cm.connections.foldl
      (fun acc p =>
        acc ++ (p.2.filter (fun ws => !sendOk ws)).map (fun ws => (ws, p.1)))
      ([] : List (HandleId × Nat))
  all_dead.foldl (fun c pr => c.disconnect pr.1 pr.2) cm

end ConnectionManager

/-- The registry invariant stated by the spec: no user entry with an
empty handle list persists in the mapping. -/
def NoEmptyEntries (cm : ConnectionManager) : Prop :=
  ∀ p ∈ cm.connections, p.2 ≠ []

-- ── Environment and service state ─────────────────────────────────────────

/-- External behaviour the services cannot control: whether a WebSocket
send to a given handle succeeds, and whether the database flush inside an
activity-log write raises. -/
structure Env where
  sendOk : HandleId → Bool
  log_write_fails : Bool

/-- The state a service call reads and writes: the database and the
process-local connection registry. -/
structure St where
  db : DB
  cm : ConnectionManager
  deriving DecidableEq, Repr

-- ── Notification service (notification_service.py) ────────────────────────

namespace NotificationService

/-- NotificationService.notify_user: persist a notification row, then —
only if the target is connected — push it over every live handle.  The
second component is the list of handles a push was attempted on. -/
def notify_user (env : Env) (s : St) (user_id : Nat) (message ntype : String)
    (reference_id : Option Nat) : St × List HandleId :=
  let nd := create_notification s.db user_id message ntype reference_id
  if s.cm.is_connected user_id then
    let cma := s.cm.send_personal_message env.sendOk user_id
    (⟨nd.2, cma.1⟩, cma.2)
  else
    (⟨nd.2, s.cm⟩, [])

/-- NotificationService.notify_task_assigned (message-formatting wrapper;
the repr-quoting of the title in the Python f-string is dropped). -/
def notify_task_assigned (env : Env) (s : St) (assignee_id task_id : Nat)
    (task_title assigner_name : String) : St × List HandleId :=
  notify_user env s assignee_id
    (assigner_name ++ " assigned you to task: " ++ task_title)
    "task_assigned" (some task_id)

/-- NotificationService.notify_task_updated. -/
def notify_task_updated (env : Env) (s : St) (user_id task_id : Nat)
    (task_title updater_name : String) : St × List HandleId :=
  notify_user env s user_id
    (updater_name ++ " updated task: " ++ task_title)
    "task_updated" (some task_id)

/-- NotificationService.notify_team_invite. -/
def notify_team_invite (env : Env) (s : St) (user_id team_id : Nat)
    (team_name inviter_name : String) : St × List HandleId :=
  notify_user env s user_id
    (inviter_name ++ " added you to team: " ++ team_name)
    "team_invite" (some team_id)

/-- NotificationService.notify_team_removed. -/
def notify_team_removed (env : Env) (s : St) (user_id team_id : Nat)
    (team_name : String) : St × List HandleId :=
  notify_user env s user_id
    ("You have been removed from team: " ++ team_name)
    "team_removed" (some team_id)

end NotificationService

-- ── Activity service (activity_service.py) ────────────────────────────────

namespace ActivityService

/-- ActivityService.log: build the row, add it and flush inside a
try/except.  The except block logs the error and then ends in a bare
`raise`, so a failing flush propagates the exception to the caller
(modelled by `Except.error ()` when `env.log_write_fails` is set) —
despite the docstring of the method, which states that it never raises. -/
def log (env : Env) (db : DB) (user_id : Nat) (action entity_type : String)
    (entity_id : Nat) : Except Unit DB :=
  if env.log_write_fails then Except.error ()
  else
    let entry : ActivityLog := ⟨user_id, action, entity_type, entity_id⟩
    Except.ok { db with activity_logs := db.activity_logs ++ [entry] }

end ActivityService

-- ── Team service (team_service.py) ────────────────────────────────────────

namespace TeamService

/-- TeamService._assert_manager_or_admin: admin or team owner pass; else
the caller must hold a manager-role membership. -/
def assert_manager_or_admin (db : DB) (team : Team) (user : User) :
    Except AppError Unit :=
  if user.role == UserRole.admin || team.owner_id == user.id then Except.ok ()
  else
    match get_member db team.id user.id with
    | none =>
        Except.error
          (AppError.forbidden "Only team managers or admins can perform this action")
    | some m =>
        if m.role == MemberRole.manager then Except.ok ()
        else
          Except.error
            (AppError.forbidden "Only team managers or admins can perform this action")

/-- TeamService.add_member: team must exist; caller must be manager,
owner or admin; target user must exist; the pair must not already be a
member (else Conflict); then the row is inserted, a team_invite
notification fires and an activity-log entry is written. -/
def add_member (env : Env) (s : St) (team_id : Nat) (member_user_id : Nat)
    (member_role : MemberRole) (current_user : User) :
    Except Raised (St × TeamMember) :=
  match getTeam s.db team_id with
  | none => Except.error (Raised.app (AppError.notFound "Team"))
  | some team =>
      match assert_manager_or_admin s.db team current_user with
      | Except.error e => Except.error (Raised.app e)
      | Except.ok _ =>
          match getUser s.db member_user_id with
          | none => Except.error (Raised.app (AppError.notFound "User"))
          | some _ =>
              match get_member s.db team_id member_user_id with
              | some _ =>
                  Except.error
                    (Raised.app (AppError.conflict "User is already a member of this team"))
              | none =>
                  let md := add_member_row s.db team_id member_user_id member_role
                  let s2 :=
                    (NotificationService.notify_team_invite env ⟨md.2, s.cm⟩
                      member_user_id team_id team.name current_user.username).1
                  match ActivityService.log env s2.db current_user.id
                      "team_member_added" "team" team_id with
                  | Except.error _ => Except.error Raised.other
                  | Except.ok db3 => Except.ok (⟨db3, s2.cm⟩, md.1)

/-- TeamService.remove_member: team must exist; the owner-protection
check (`team.owner_id == user_id` → Forbidden) runs before the
manager/owner/admin privilege check; then the row is removed (NotFound if
absent), a team_removed notification fires and an activity-log entry is
written. -/
def remove_member (env : Env) (s : St) (team_id : Nat) (user_id : Nat)
    (current_user : User) : Except Raised St :=
  match getTeam s.db team_id with
  | none => Except.error (Raised.app (AppError.notFound "Team"))
  | some team =>
      if team.owner_id == user_id then
        Except.error (Raised.app (AppError.forbidden "Cannot remove the team owner"))
      else
        match assert_manager_or_admin s.db team current_user with
        | Except.error e => Except.error (Raised.app e)
        | Except.ok _ =>
            match remove_member_row s.db team_id user_id with
            | (none, _) => Except.error (Raised.app (AppError.notFound "TeamMember"))
            | (some _, db2) =>
                let s2 :=
                  (NotificationService.notify_team_removed env ⟨db2, s.cm⟩
                    user_id team_id team.name).1
                match ActivityService.log env s2.db current_user.id
                    "team_member_removed" "team" team_id with
                | Except.error _ => Except.error Raised.other
                | Except.ok db3 => Except.ok ⟨db3, s2.cm⟩

end TeamService

-- ── Task schemas and filtering (schemas/task.py, crud/task.py) ────────────

/-- TaskUpdate schema.  Pydantic tracks which fields were explicitly set
(`exclude_unset`); for `assigned_to_id` and `team_id` an explicit null is
meaningful (unassign), so those carry a separate set flag.  For the other
optional fields an explicit null is collapsed into unset — no modelled
behaviour distinguishes the two. -/
structure TaskUpdate where
  title : Option String := none
  description : Option String := none
  status : Option TaskStatus := none
  priority : Option TaskPriority := none
  due_date : Option Nat := none
  assigned_to_id : Option Nat := none
  assigned_to_id_set : Bool := false
  team_id : Option Nat := none
  team_id_set : Bool := false
  deriving Repr

/-- CRUDBase.update applied to a task: set exactly the fields present in
`model_dump(exclude_unset=True)`. -/
def applyTaskUpdate (t : Task) (u : TaskUpdate) : Task :=
  { t with
    title := u.title.getD t.title
    description := if u.description.isSome then u.description else t.description
    status := u.status.getD t.status
    priority := u.priority.getD t.priority
    due_date := if u.due_date.isSome then u.due_date else t.due_date
    assigned_to_id := if u.assigned_to_id_set then u.assigned_to_id else t.assigned_to_id
    team_id := if u.team_id_set then u.team_id else t.team_id }

/-- Replace the task row with the given id (SQLAlchemy mutates the row in
place; the flush persists it). -/
def replaceTask (db : DB) (t : Task) : DB :=
  { db with tasks := db.tasks.map (fun x => if x.id == t.id then t else x) }

/-- TaskFilter schema (query parameters of the list endpoint). -/
structure TaskFilter where
  status : Option TaskStatus := none
  priority : Option TaskPriority := none
  assigned_to_id : Option Nat := none
  team_id : Option Nat := none
  is_archived : Bool := false
  due_date_from : Option Nat := none
  due_date_to : Option Nat := none
  search : Option String := none
  page : Nat := 1
  size : Nat := 20
  deriving Repr

/-- Character-list helper: the pattern matches at the head of the text. -/
def likeHere : List Char → List Char → Bool
  | [], _ => true
  | _ :: _, [] => false
  | a :: as, b :: bs => a == b && likeHere as bs

/-- Character-list helper: the pattern matches somewhere in the text. -/
def likeAnywhere (p : List Char) : List Char → Bool
  | [] => likeHere p []
  | b :: bs => likeHere p (b :: bs) || likeAnywhere p bs

/-- SQL `column ILIKE term` with wildcards on both sides:
case-insensitive substring containment. -/
def ilikeContains (term text : String) : Bool :=
  likeAnywhere term.toLower.data text.toLower.data

/-- The search filter of CRUDTask.list_with_filters: applied only when
`filters.search` is truthy (absent and empty strings are skipped), and
matches the title or the (non-null) description. -/
def searchMatches (f : TaskFilter) (t : Task) : Bool :=
  match f.search with
  | none => true
  | some term =>
      if term.isEmpty then true
      else
        ilikeContains term t.title ||
          (match t.description with
           | some d => ilikeContains term d
           | none => false)

/-- The visibility filter of CRUDTask.list_with_filters: when an
`owner_id` is supplied, the task must be owned by or assigned to that
user, or — when a non-empty `team_ids` list is supplied — belong to one
of those teams. -/
def visibilityOk (own : Option Nat) (team_ids : List Nat) (t : Task) : Bool :=
  match own with
  | none => true
  | some uid =>
      t.owner_id == uid || t.assigned_to_id == some uid ||
        (!team_ids.isEmpty &&
          (match t.team_id with
           | some tid => team_ids.contains tid
           | none => false))

/-- The conjunction of filter criteria that CRUDTask.list_with_filters
applies to the row-returning `query` object. -/
def queryMatches (f : TaskFilter) (own : Option Nat) (team_ids : List Nat)
    (t : Task) : Bool :=
  visibilityOk own team_ids t &&
  (t.is_archived == f.is_archived) &&
  (match f.status with | none => true | some x => t.status == x) &&
  (match f.priority with | none => true | some x => t.priority == x) &&
  (match f.assigned_to_id with | none => true | some x => t.assigned_to_id == some x) &&
  (match f.team_id with | none => true | some x => t.team_id == some x) &&
  (match f.due_date_from with
   | none => true
   | some x => match t.due_date with | some d => x ≤ d | none => false) &&
  (match f.due_date_to with
   | none => true
   | some x => match t.due_date with | some d => d ≤ x | none => false) &&
  searchMatches f t

/-- The conjunction of filter criteria that CRUDTask.list_with_filters
applies to the `count_query` object — the source threads every `.where`
through both query objects in lockstep. -/
def countMatches (f : TaskFilter) (own : Option Nat) (team_ids : List Nat)
    (t : Task) : Bool :=
  visibilityOk own team_ids t &&
  (t.is_archived == f.is_archived) &&
  (match f.status with | none => true | some x => t.status == x) &&
  (match f.priority with | none => true | some x => t.priority == x) &&
  (match f.assigned_to_id with | none => true | some x => t.assigned_to_id == some x) &&
  (match f.team_id with | none => true | some x => t.team_id == some x) &&
  (match f.due_date_from with
   | none => true
   | some x => match t.due_date with | some d => x ≤ d | none => false) &&
  (match f.due_date_to with
   | none => true
   | some x => match t.due_date with | some d => d ≤ x | none => false) &&
  searchMatches f t

/-- CRUDTask.list_with_filters: the total comes from the count query over
the filtered set; the page comes from the row query over the same filters
with offset `(page-1)*size` and limit `size`.  (The order-by on
`created_at desc` is presentation only; `db.tasks` stands for the query
order.) -/
def list_with_filters (db : DB) (f : TaskFilter) (own : Option Nat)
    (team_ids : List Nat) : List Task × Nat :=
  let total := (db.tasks.filter (countMatches f own team_ids)).length
  let skip := (f.page - 1) * f.size
  (((db.tasks.filter (queryMatches f own team_ids)).drop skip).take f.size, total)

-- ── Task service (task_service.py) ────────────────────────────────────────

namespace TaskService

/-- TaskService._assert_can_view: admin, owner or assignee pass; else any
membership in the task's team (when it has one) passes; else Forbidden. -/
def assert_can_view (db : DB) (task : Task) (user : User) :
    Except AppError Unit :=
  if user.role == UserRole.admin then Except.ok ()
  else if task.owner_id == user.id || task.assigned_to_id == some user.id then
    Except.ok ()
  else
    match task.team_id with
    | some tid =>
        match get_member db tid user.id with
        | some _ => Except.ok ()
        | none => Except.error (AppError.forbidden "You do not have access to this task")
    | none => Except.error (AppError.forbidden "You do not have access to this task")

/-- TaskService._assert_can_modify: admin or owner pass; else a
manager-role membership in the task's team (when it has one) passes; else
Forbidden. -/
def assert_can_modify (db : DB) (task : Task) (user : User) :
    Except AppError Unit :=
  if user.role == UserRole.admin then Except.ok ()
  else if task.owner_id == user.id then Except.ok ()
  else
    match task.team_id with
    | some tid =>
        match get_member db tid user.id with
        | some m =>
            if m.role == MemberRole.manager then Except.ok ()
            else
              Except.error
                (AppError.forbidden
                  "Only the task owner, team manager, or admin can modify this task")
        | none =>
            Except.error
              (AppError.forbidden
                "Only the task owner, team manager, or admin can modify this task")
    | none =>
        Except.error
          (AppError.forbidden
            "Only the task owner, team manager, or admin can modify this task")

/-- TaskService.update_task: fetch, authorize, apply the update, write the
activity log, then notify the new assignee (only if set, changed and not
the acting user) and the owner (only if the acting user is not the
owner).  The Python task object is mutated in place before the
notifications, so the messages carry the updated title. -/
def update_task (env : Env) (s : St) (task_id : Nat) (task_in : TaskUpdate)
    (current_user : User) : Except Raised (St × Task) :=
  match getTask s.db task_id with
  | none => Except.error (Raised.app (AppError.notFound "Task"))
  | some task =>
      match assert_can_modify s.db task current_user with
      | Except.error e => Except.error (Raised.app e)
      | Except.ok _ =>
          let old_assignee := task.assigned_to_id
          let updated := applyTaskUpdate task task_in
          let db2 := replaceTask s.db updated
          match ActivityService.log env db2 current_user.id
              "task_updated" "task" task.id with
          | Except.error _ => Except.error Raised.other
          | Except.ok db3 =>
              let s3 : St := ⟨db3, s.cm⟩
              let s4 :=
                match task_in.assigned_to_id with
                | some v =>
                    if some v ≠ old_assignee ∧ v ≠ current_user.id then
                      (NotificationService.notify_task_assigned env s3 v task.id
                        updated.title current_user.username).1
                    else s3
                | none => s3
              let s5 :=
                if task.owner_id ≠ current_user.id then
                  (NotificationService.notify_task_updated env s4 task.owner_id
                    task.id updated.title current_user.username).1
                else s4
              Except.ok (s5, updated)

/-- TaskService.delete_task: fetch, authorize, archive (soft delete),
write the activity log. -/
def delete_task (env : Env) (s : St) (task_id : Nat) (current_user : User) :
    Except Raised (St × Task) :=
  match getTask s.db task_id with
  | none => Except.error (Raised.app (AppError.notFound "Task"))
  | some task =>
      match assert_can_modify s.db task current_user with
      | Except.error e => Except.error (Raised.app e)
      | Except.ok _ =>
          let archived := { task with is_archived := true }
          let db2 := replaceTask s.db archived
          match ActivityService.log env db2 current_user.id
              "task_archived" "task" task.id with
          | Except.error _ => Except.error Raised.other
          | Except.ok db3 => Except.ok (⟨db3, s.cm⟩, archived)

/-- TaskService.assign_task: fetch, authorize, set the assignee, notify
the assignee unless the acting user assigned themselves, write the
activity log. -/
def assign_task (env : Env) (s : St) (task_id : Nat) (assignee_id : Nat)
    (current_user : User) : Except Raised (St × Task) :=
  match getTask s.db task_id with
  | none => Except.error (Raised.app (AppError.notFound "Task"))
  | some task =>
      match assert_can_modify s.db task current_user with
      | Except.error e => Except.error (Raised.app e)
      | Except.ok _ =>
          let updated := { task with assigned_to_id := some assignee_id }
          let db2 := replaceTask s.db updated
          let s3 :=
            if assignee_id ≠ current_user.id then
              (NotificationService.notify_task_assigned env ⟨db2, s.cm⟩
                assignee_id task.id updated.title current_user.username).1
            else ⟨db2, s.cm⟩
          match ActivityService.log env s3.db current_user.id
              "task_assigned" "task" task.id with
          | Except.error _ => Except.error Raised.other
          | Except.ok db4 => Except.ok (⟨db4, s3.cm⟩, updated)

/-- TaskService.list_tasks: admins get the unscoped query; everyone else
gets the query restricted by their id and the ids of the teams they
belong to (as owner or member). -/
def list_tasks (db : DB) (f : TaskFilter) (current_user : User) :
    List Task × Nat :=
  if current_user.role == UserRole.admin then
    list_with_filters db f none []
  else
    list_with_filters db f (some current_user.id)
      (get_user_team_ids db current_user.id)

end TaskService

-- ── Spec-side visibility predicates (for the listing claim) ───────────────

/-- Modelled from the spec sentence behind the listing claim: a task is
visible when it is owned by the actor, assigned to the actor, or belongs
to a team the actor holds a membership row in.  (Team ownership without a
membership row does not count here.) -/
def specVisibleByMembership (db : DB) (u : User) (t : Task) : Bool :=
  t.owner_id == u.id || t.assigned_to_id == some u.id ||
    (match t.team_id with
     | some tid =>
         db.team_members.any (fun m => m.team_id == tid && m.user_id == u.id)
     | none => false)

/-- The amended visibility predicate matching the code: owned by the
actor, assigned to the actor, or belonging to a team the actor owns or
holds a membership row in. -/
def specVisibleOwnedOrMember (db : DB) (u : User) (t : Task) : Bool :=
  t.owner_id == u.id || t.assigned_to_id == some u.id ||
    (match t.team_id with
     | some tid =>
         db.teams.any
           (fun tm =>
             tm.id == tid &&
               (tm.owner_id == u.id ||
                 db.team_members.any
                   (fun m => m.team_id == tm.id && m.user_id == u.id)))
     | none => false)

/-- The non-visibility filter criteria on their own (the claim's "other
filters"). -/
def plainFilterMatches (f : TaskFilter) (t : Task) : Bool :=
  queryMatches f none [] t

-- ── WebSocket endpoint establishment (api/v1/websocket.py) ────────────────

/-- Outcome of the connection-establishment phase of
`websocket_endpoint`: the channel is closed with a code and reason, or it
is accepted for the given user id. -/
inductive WsOutcome where
  | closed (code : Nat) (reason : String)
  | accepted (user_id : String)
  deriving DecidableEq, Repr

/-- The close code of an outcome, if it closed. -/
def WsOutcome.closeCode : WsOutcome → Option Nat
  | WsOutcome.closed c _ => some c
  | WsOutcome.accepted _ => none

/-- Connection establishment in `websocket_endpoint`, up to the
`ws_manager.connect` call.  `decode` models `decode_access_token`: an
exception (`Except.error`) for an invalid or expired token, otherwise the
optional `sub` claim of the payload.  The boolean records whether
`ws_manager.connect` was invoked (only the accepted branch reaches it).
Python's `if not token` treats an empty token string like a missing
one. -/
def websocket_endpoint (decode : String → Except Unit (Option String))
    (token : Option String) (path_user_id : String) : WsOutcome × Bool :=
  match token with
  | none => (WsOutcome.closed 4001 "Missing authentication token", false)
  | some tok =>
      if tok.isEmpty then
        (WsOutcome.closed 4001 "Missing authentication token", false)
      else
        match decode tok with
        | Except.error _ =>
            (WsOutcome.closed 4001 "Invalid or expired token", false)
        | Except.ok sub =>
            if sub ≠ some path_user_id then
              (WsOutcome.closed 4003 "Token user_id mismatch", false)
            else
              (WsOutcome.accepted path_user_id, true)

-- ── Theorems ──────────────────────────────────────────────────────────────

/-- Claim C1: every remove_member request that targets the team's owner
(the user id to remove equals `team.owner_id`) fails with the Forbidden
outcome of the owner-protection check, for an arbitrary caller — plain
member, manager, owner or admin alike — because that check runs before
the manager/owner/admin privilege check.  The error return carries no
state, so the membership set is unchanged. -/
theorem remove_member_owner_protected (env : Env) (s : St)
    (team_id user_id : Nat) (current_user : User) (team : Team)
    (hteam : getTeam s.db team_id = some team)
    (howner : team.owner_id = user_id) :
    TeamService.remove_member env s team_id user_id current_user =
      Except.error (Raised.app (AppError.forbidden "Cannot remove the team owner")) := by
  simp [TeamService.remove_member, hteam, howner]

/-- Witness for C1: a concrete state where even an admin caller is
refused the removal of the team owner. -/
theorem remove_member_owner_protected_witness :
    getTeam (DB.mk [] [⟨10, "t", 1⟩] [⟨10, 1, MemberRole.manager⟩] [] [] [] 0) 10 =
      some ⟨10, "t", 1⟩ ∧
    TeamService.remove_member ⟨fun _ => true, false⟩
        ⟨⟨[], [⟨10, "t", 1⟩], [⟨10, 1, MemberRole.manager⟩], [], [], [], 0⟩, ⟨[]⟩⟩
        10 1 ⟨5, "adm", UserRole.admin⟩ =
      Except.error (Raised.app (AppError.forbidden "Cannot remove the team owner")) :=
  ⟨rfl, remove_member_owner_protected _ _ _ _ _ ⟨10, "t", 1⟩ rfl rfl⟩

/-- Claim C5 (code bug): the claim — and the docstring of
ActivityService.log itself — says a logging failure is swallowed and
never reaches the caller, but the except block of the method ends in a
bare `raise`.  At a concrete failing input the exception propagates
(`Except.error`), and it aborts the triggering team operation
(remove_member returns the non-domain error instead of succeeding). -/
theorem activity_log_failure_propagates :
    ActivityService.log ⟨fun _ => true, true⟩
        ⟨[], [⟨10, "t", 1⟩], [⟨10, 2, MemberRole.member⟩], [], [], [], 0⟩
        1 "team_member_removed" "team" 10 = Except.error () ∧
    TeamService.remove_member ⟨fun _ => true, true⟩
        ⟨⟨[], [⟨10, "t", 1⟩], [⟨10, 2, MemberRole.member⟩], [], [], [], 0⟩, ⟨[]⟩⟩
        10 2 ⟨1, "own", UserRole.user⟩ = Except.error Raised.other := by
  constructor
  · rfl
  · rfl

/-- Claim C4 (counterexample): the three failure cases of connection
establishment do not carry pairwise-distinct close codes — a missing
token and an invalid/expired token both close with code 4001. -/
theorem ws_close_codes_not_distinct :
    (websocket_endpoint (fun _ => Except.error ()) none "1").1.closeCode = some 4001 ∧
    (websocket_endpoint (fun _ => Except.error ()) (some "tok") "1").1.closeCode = some 4001 ∧
    (websocket_endpoint (fun _ => Except.error ()) none "1").1.closeCode =
      (websocket_endpoint (fun _ => Except.error ()) (some "tok") "1").1.closeCode :=
  ⟨rfl, rfl, rfl⟩

/-- Claim C4 (amended): every connection-establishment failure closes the
channel without invoking the registry's connect: a missing (or empty)
token and an invalid/expired token both close with code 4001 — they are
distinguished only by the reason string — while a token-identity mismatch
closes with the distinct code 4003. -/
theorem ws_establishment_failure_cases
    (decode : String → Except Unit (Option String))
    (token : Option String) (path_user_id : String) :
    (token = none ∨ token = some "" →
      websocket_endpoint decode token path_user_id =
        (WsOutcome.closed 4001 "Missing authentication token", false)) ∧
    (∀ t, token = some t → t.isEmpty = false → decode t = Except.error () →
      websocket_endpoint decode token path_user_id =
        (WsOutcome.closed 4001 "Invalid or expired token", false)) ∧
    (∀ t sub, token = some t → t.isEmpty = false → decode t = Except.ok sub →
      sub ≠ some path_user_id →
      websocket_endpoint decode token path_user_id =
        (WsOutcome.closed 4003 "Token user_id mismatch", false)) := by
  refine ⟨?_, ?_, ?_⟩
  · rintro (rfl | rfl) <;> rfl
  · rintro t rfl hemp hdec
    simp [websocket_endpoint, hemp, hdec]
  · rintro t sub rfl hemp hdec hne
    simp [websocket_endpoint, hemp, hdec, hne]

/-- Witness for the amended C4: the three failure cases at concrete
inputs, against a decoder that accepts exactly the token "good" with
subject "7". -/
theorem ws_establishment_failure_cases_witness :
    (websocket_endpoint
        (fun t => if t = "good" then Except.ok (some "7") else Except.error ())
        none "7" =
      (WsOutcome.closed 4001 "Missing authentication token", false)) ∧
    (websocket_endpoint
        (fun t => if t = "good" then Except.ok (some "7") else Except.error ())
        (some "bad") "7" =
      (WsOutcome.closed 4001 "Invalid or expired token", false)) ∧
    (websocket_endpoint
        (fun t => if t = "good" then Except.ok (some "7") else Except.error ())
        (some "good") "8" =
      (WsOutcome.closed 4003 "Token user_id mismatch", false)) :=
  ⟨(ws_establishment_failure_cases _ none "7").1 (Or.inl rfl),
   (ws_establishment_failure_cases _ (some "bad") "7").2.1 "bad" rfl rfl (by rfl),
   (ws_establishment_failure_cases _ (some "good") "8").2.2 "good" (some "7") rfl rfl
     (by rfl) (by decide)⟩

/-- Claim C2: notify_user persists exactly one notification row —
unconditionally, with `is_read = false`, before and independently of any
push attempt (the appended row is the same for every push environment, so
a push failure never rolls it back) — and when the target user is not
connected no push attempt occurs and the registry is untouched. -/
theorem notify_user_persists_unconditionally (env : Env) (s : St) (uid : Nat)
    (msg ty : String) (ref : Option Nat) :
    ((NotificationService.notify_user env s uid msg ty ref).1.db.notifications =
      s.db.notifications ++
        [{ id := s.db.next_id, user_id := uid, message := msg, type := ty,
           reference_id := ref, is_read := false }]) ∧
    (s.cm.is_connected uid = false →
      (NotificationService.notify_user env s uid msg ty ref).2 = [] ∧
      (NotificationService.notify_user env s uid msg ty ref).1.cm = s.cm) := by
  constructor
  · unfold NotificationService.notify_user create_notification
    split <;> rfl
  · intro h
    unfold NotificationService.notify_user
    simp [h]

/-- Witness for C2: a disconnected target user; the row is persisted with
`is_read = false` and no push attempt occurs. -/
theorem notify_user_persists_unconditionally_witness :
    ((NotificationService.notify_user ⟨fun _ => false, false⟩
        ⟨⟨[], [], [], [], [], [], 5⟩, ⟨[]⟩⟩ 2 "hello" "system" none).1.db.notifications =
      [{ id := 5, user_id := 2, message := "hello", type := "system",
         reference_id := none, is_read := false }]) ∧
    (NotificationService.notify_user ⟨fun _ => false, false⟩
        ⟨⟨[], [], [], [], [], [], 5⟩, ⟨[]⟩⟩ 2 "hello" "system" none).2 = [] := by
  have h := notify_user_persists_unconditionally ⟨fun _ => false, false⟩
    ⟨⟨[], [], [], [], [], [], 5⟩, ⟨[]⟩⟩ 2 "hello" "system" none
  exact ⟨h.1, (h.2 rfl).1⟩

/-- Claim C9: with the team present, the caller authorized and the target
user existing, add_member raises Conflict when the (team, user) pair
already holds a membership row — the error return carries no state, so no
duplicate row is ever created — and otherwise (with a working activity
log) succeeds, appending exactly one membership row. -/
theorem add_member_idempotent_rejecting (env : Env) (s : St)
    (team_id uid : Nat) (mrole : MemberRole) (cu : User) (team : Team) (tu : User)
    (hteam : getTeam s.db team_id = some team)
    (hpriv : TeamService.assert_manager_or_admin s.db team cu = Except.ok ())
    (huser : getUser s.db uid = some tu) :
    (∀ m, get_member s.db team_id uid = some m →
      TeamService.add_member env s team_id uid mrole cu =
        Except.error
          (Raised.app (AppError.conflict "User is already a member of this team"))) ∧
    (get_member s.db team_id uid = none → env.log_write_fails = false →
      ∃ s2, TeamService.add_member env s team_id uid mrole cu =
          Except.ok (s2, ⟨team_id, uid, mrole⟩) ∧
        s2.db.team_members = s.db.team_members ++ [⟨team_id, uid, mrole⟩]) := by
  constructor
  · intro m hm
    simp [TeamService.add_member, hteam, hpriv, huser, hm]
  · intro hm henv
    cases hconn : s.cm.is_connected uid <;>
      · simp only [TeamService.add_member, hteam, hpriv, huser, hm,
          NotificationService.notify_team_invite, NotificationService.notify_user,
          create_notification, add_member_row, ActivityService.log, henv, hconn,
          Bool.false_eq_true, if_false, if_true, ite_true, ite_false]
        exact ⟨_, rfl, by simp⟩

/-- Witness for C9: a second add of the same (team, user) pair yields
Conflict; a first add appends exactly one membership row. -/
theorem add_member_idempotent_rejecting_witness :
    (TeamService.add_member ⟨fun _ => true, false⟩
        ⟨⟨[⟨2, "bob", UserRole.user⟩], [⟨10, "t", 1⟩], [⟨10, 2, MemberRole.member⟩],
          [], [], [], 0⟩, ⟨[]⟩⟩
        10 2 MemberRole.member ⟨1, "own", UserRole.user⟩ =
      Except.error
        (Raised.app (AppError.conflict "User is already a member of this team"))) ∧
    (∃ s2, TeamService.add_member ⟨fun _ => true, false⟩
          ⟨⟨[⟨2, "bob", UserRole.user⟩], [⟨10, "t", 1⟩], [], [], [], [], 0⟩, ⟨[]⟩⟩
          10 2 MemberRole.member ⟨1, "own", UserRole.user⟩ =
        Except.ok (s2, ⟨10, 2, MemberRole.member⟩) ∧
      s2.db.team_members = [] ++ [⟨10, 2, MemberRole.member⟩]) := by
  constructor
  · exact (add_member_idempotent_rejecting ⟨fun _ => true, false⟩
      ⟨⟨[⟨2, "bob", UserRole.user⟩], [⟨10, "t", 1⟩], [⟨10, 2, MemberRole.member⟩],
        [], [], [], 0⟩, ⟨[]⟩⟩ 10 2
      MemberRole.member ⟨1, "own", UserRole.user⟩ ⟨10, "t", 1⟩
      ⟨2, "bob", UserRole.user⟩ rfl rfl rfl).1 ⟨10, 2, MemberRole.member⟩ rfl
  · exact (add_member_idempotent_rejecting ⟨fun _ => true, false⟩
      ⟨⟨[⟨2, "bob", UserRole.user⟩], [⟨10, "t", 1⟩], [], [], [], [], 0⟩, ⟨[]⟩⟩ 10 2
      MemberRole.member ⟨1, "own", UserRole.user⟩ ⟨10, "t", 1⟩
      ⟨2, "bob", UserRole.user⟩ rfl rfl rfl).2 rfl rfl

/-- The modify gate passes exactly for an admin, the task owner, or a
manager-role member of the task's team. -/
theorem assert_can_modify_ok_iff (db : DB) (task : Task) (user : User) :
    TaskService.assert_can_modify db task user = Except.ok () ↔
      (user.role = UserRole.admin ∨ task.owner_id = user.id ∨
        ∃ tid m, task.team_id = some tid ∧
          get_member db tid user.id = some m ∧ m.role = MemberRole.manager) := by
  unfold TaskService.assert_can_modify
  by_cases h1 : user.role = UserRole.admin
  · simp [h1]
  · by_cases h2 : task.owner_id = user.id
    · simp [h1, h2]
    · cases hteam : task.team_id with
      | none => simp [h1, h2, hteam]
      | some tid =>
          cases hmem : get_member db tid user.id with
          | none => simp [h1, h2, hteam, hmem]
          | some m =>
              cases hrole : m.role <;> simp [h1, h2, hteam, hmem, hrole]

/-- The modify gate has exactly two outcomes: pass, or the Forbidden
error with the modify-denial detail. -/
theorem assert_can_modify_cases (db : DB) (task : Task) (user : User) :
    TaskService.assert_can_modify db task user = Except.ok () ∨
    TaskService.assert_can_modify db task user =
      Except.error (AppError.forbidden
        "Only the task owner, team manager, or admin can modify this task") := by
  unfold TaskService.assert_can_modify
  repeat' split
  all_goals simp

/-- Claim C3: with the task present, (i) the modify gate passes iff the
actor is an admin, the task's owner, or a manager-role member of the
task's team; (ii)–(iv) each modify operation — update, archive/delete,
reassign — returns the Forbidden modify-denial iff the gate denies; and
(v) an actor who is merely the assignee or merely a plain (non-manager)
member of the task's team passes the view gate but gets the Forbidden
modify-denial. -/
theorem modify_rules_characterization (env : Env) (s : St) (task_id : Nat)
    (task : Task) (user : User) (tin : TaskUpdate) (aid : Nat)
    (htask : getTask s.db task_id = some task) :
    (TaskService.assert_can_modify s.db task user = Except.ok () ↔
      (user.role = UserRole.admin ∨ task.owner_id = user.id ∨
        ∃ tid m, task.team_id = some tid ∧
          get_member s.db tid user.id = some m ∧ m.role = MemberRole.manager)) ∧
    (TaskService.update_task env s task_id tin user =
        Except.error (Raised.app (AppError.forbidden
          "Only the task owner, team manager, or admin can modify this task")) ↔
      TaskService.assert_can_modify s.db task user ≠ Except.ok ()) ∧
    (TaskService.delete_task env s task_id user =
        Except.error (Raised.app (AppError.forbidden
          "Only the task owner, team manager, or admin can modify this task")) ↔
      TaskService.assert_can_modify s.db task user ≠ Except.ok ()) ∧
    (TaskService.assign_task env s task_id aid user =
        Except.error (Raised.app (AppError.forbidden
          "Only the task owner, team manager, or admin can modify this task")) ↔
      TaskService.assert_can_modify s.db task user ≠ Except.ok ()) ∧
    (user.role ≠ UserRole.admin → task.owner_id ≠ user.id →
      (∀ tid mm, task.team_id = some tid →
        get_member s.db tid user.id = some mm → mm.role = MemberRole.member) →
      (task.assigned_to_id = some user.id ∨
        ∃ tid mm, task.team_id = some tid ∧ get_member s.db tid user.id = some mm) →
      TaskService.assert_can_view s.db task user = Except.ok () ∧
      TaskService.assert_can_modify s.db task user =
        Except.error (AppError.forbidden
          "Only the task owner, team manager, or admin can modify this task")) := by
  have hmodcases := assert_can_modify_cases s.db task user
  refine ⟨assert_can_modify_ok_iff s.db task user, ?_, ?_, ?_, ?_⟩
  · rcases hmodcases with hok | herr
    · constructor
      · intro hupd
        exfalso
        simp only [TaskService.update_task, htask, hok] at hupd
        split at hupd <;> simp at hupd
      · intro hne; exact absurd hok hne
    · constructor
      · intro _ hok
        rw [herr] at hok
        cases hok
      · intro _
        simp [TaskService.update_task, htask, herr]
  · rcases hmodcases with hok | herr
    · constructor
      · intro hdel
        exfalso
        simp only [TaskService.delete_task, htask, hok] at hdel
        split at hdel <;> simp at hdel
      · intro hne; exact absurd hok hne
    · constructor
      · intro _ hok
        rw [herr] at hok
        cases hok
      · intro _
        simp [TaskService.delete_task, htask, herr]
  · rcases hmodcases with hok | herr
    · constructor
      · intro hasg
        exfalso
        simp only [TaskService.assign_task, htask, hok] at hasg
        split at hasg <;> simp at hasg
      · intro hne; exact absurd hok hne
    · constructor
      · intro _ hok
        rw [herr] at hok
        cases hok
      · intro _
        simp [TaskService.assign_task, htask, herr]
  · intro hadm hown hplain hrel
    constructor
    · unfold TaskService.assert_can_view
      rcases hrel with hassign | ⟨tid, mm, hteam, hmem⟩
      · simp [hadm, hassign]
      · by_cases hassign : task.assigned_to_id = some user.id
        · simp [hadm, hassign]
        · simp [hadm, hown, hassign, hteam, hmem]
    · have hnotok : TaskService.assert_can_modify s.db task user ≠ Except.ok () := by
        intro hok
        rcases (assert_can_modify_ok_iff s.db task user).mp hok with
          h | h | ⟨tid, m, hteq, hmem, hrole⟩
        · exact hadm h
        · exact hown h
        · have := hplain tid m hteq hmem
          rw [this] at hrole
          cases hrole
      rcases hmodcases with hok | herr
      · exact absurd hok hnotok
      · exact herr

/-- Witness for C3: user 3 is a plain (non-manager) member of team 10;
task 100 is owned by user 1 within team 10.  User 3 passes the view gate
but is denied modification, and a concrete update attempt returns the
Forbidden modify-denial. -/
theorem modify_rules_characterization_witness :
    (TaskService.assert_can_view
        ⟨[], [⟨10, "t", 1⟩], [⟨10, 3, MemberRole.member⟩],
          [⟨100, "x", none, TaskStatus.pending, TaskPriority.medium, none, 1, none,
            some 10, false, 0⟩], [], [], 0⟩
        ⟨100, "x", none, TaskStatus.pending, TaskPriority.medium, none, 1, none,
          some 10, false, 0⟩
        ⟨3, "u", UserRole.user⟩ = Except.ok ()) ∧
    (TaskService.assert_can_modify
        ⟨[], [⟨10, "t", 1⟩], [⟨10, 3, MemberRole.member⟩],
          [⟨100, "x", none, TaskStatus.pending, TaskPriority.medium, none, 1, none,
            some 10, false, 0⟩], [], [], 0⟩
        ⟨100, "x", none, TaskStatus.pending, TaskPriority.medium, none, 1, none,
          some 10, false, 0⟩
        ⟨3, "u", UserRole.user⟩ =
      Except.error (AppError.forbidden
        "Only the task owner, team manager, or admin can modify this task")) ∧
    (TaskService.update_task ⟨fun _ => true, false⟩
        ⟨⟨[], [⟨10, "t", 1⟩], [⟨10, 3, MemberRole.member⟩],
          [⟨100, "x", none, TaskStatus.pending, TaskPriority.medium, none, 1, none,
            some 10, false, 0⟩], [], [], 0⟩, ⟨[]⟩⟩
        100 {} ⟨3, "u", UserRole.user⟩ =
      Except.error (Raised.app (AppError.forbidden
        "Only the task owner, team manager, or admin can modify this task"))) := by
  have h := modify_rules_characterization ⟨fun _ => true, false⟩
    ⟨⟨[], [⟨10, "t", 1⟩], [⟨10, 3, MemberRole.member⟩],
      [⟨100, "x", none, TaskStatus.pending, TaskPriority.medium, none, 1, none,
        some 10, false, 0⟩], [], [], 0⟩, ⟨[]⟩⟩
    100
    ⟨100, "x", none, TaskStatus.pending, TaskPriority.medium, none, 1, none,
      some 10, false, 0⟩
    ⟨3, "u", UserRole.user⟩ {} 9 rfl
  have hplain : ∀ tid mm,
      (⟨100, "x", none, TaskStatus.pending, TaskPriority.medium, none, 1, none,
        some 10, false, 0⟩ : Task).team_id = some tid →
      get_member
        ⟨[], [⟨10, "t", 1⟩], [⟨10, 3, MemberRole.member⟩],
          [⟨100, "x", none, TaskStatus.pending, TaskPriority.medium, none, 1, none,
            some 10, false, 0⟩], [], [], 0⟩ tid 3 = some mm →
      mm.role = MemberRole.member := by
    intro tid mm ht hm
    have ht2 : (some 10 : Option Nat) = some tid := ht
    injection ht2 with h10
    subst h10
    have hgm : get_member
        ⟨[], [⟨10, "t", 1⟩], [⟨10, 3, MemberRole.member⟩],
          [⟨100, "x", none, TaskStatus.pending, TaskPriority.medium, none, 1, none,
            some 10, false, 0⟩], [], [], 0⟩ 10 3 =
        some ⟨10, 3, MemberRole.member⟩ := rfl
    rw [hgm] at hm
    injection hm with hmm
    rw [← hmm]
  obtain ⟨hview, hmod⟩ := h.2.2.2.2 (by decide) (by decide) hplain
    (Or.inr ⟨10, ⟨10, 3, MemberRole.member⟩, rfl, rfl⟩)
  refine ⟨hview, hmod, ?_⟩
  refine h.2.1.mpr ?_
  intro hx
  rw [hmod] at hx
  exact Except.noConfusion hx

/-- The database effect of notify_user does not depend on the connection
state or the push outcome: it is exactly one appended row. -/
theorem notify_user_db_eq (env : Env) (s : St) (uid : Nat) (msg ty : String)
    (ref : Option Nat) :
    (NotificationService.notify_user env s uid msg ty ref).1.db =
      { s.db with
        notifications := s.db.notifications ++
          [{ id := s.db.next_id, user_id := uid, message := msg, type := ty,
             reference_id := ref, is_read := false }]
        next_id := s.db.next_id + 1 } := by
  unfold NotificationService.notify_user create_notification
  split <;> rfl

/-- Claim C10: after a permitted update (with a working activity log) the
call succeeds and appends exactly these notification rows: a
task_assigned row for the new assignee exactly when the update carries a
non-null assignee that differs from the previous assignee and from the
acting user, and a task_updated row for the task's owner exactly when the
acting user is not the owner. -/
theorem update_task_notification_conditions (env : Env) (s : St)
    (task_id : Nat) (task : Task) (tin : TaskUpdate) (cu : User)
    (htask : getTask s.db task_id = some task)
    (hmod : TaskService.assert_can_modify s.db task cu = Except.ok ())
    (henv : env.log_write_fails = false) :
    ∃ s5, TaskService.update_task env s task_id tin cu =
        Except.ok (s5, applyTaskUpdate task tin) ∧
      s5.db.notifications =
        s.db.notifications ++
          (match tin.assigned_to_id with
           | some v =>
               if some v ≠ task.assigned_to_id ∧ v ≠ cu.id then
                 [{ id := s.db.next_id, user_id := v,
                    message := cu.username ++ " assigned you to task: " ++
                      (applyTaskUpdate task tin).title,
                    type := "task_assigned", reference_id := some task.id,
                    is_read := false }]
               else []
           | none => []) ++
          (if task.owner_id ≠ cu.id then
             [{ id := s.db.next_id +
                  (match tin.assigned_to_id with
                   | some v =>
                       if some v ≠ task.assigned_to_id ∧ v ≠ cu.id then 1 else 0
                   | none => 0),
                user_id := task.owner_id,
                message := cu.username ++ " updated task: " ++
                  (applyTaskUpdate task tin).title,
                type := "task_updated", reference_id := some task.id,
                is_read := false }]
           else []) := by
  rcases hassign : tin.assigned_to_id with _ | v
  · by_cases howner : task.owner_id ≠ cu.id
    · simp only [TaskService.update_task, htask, hmod, hassign,
        ActivityService.log, henv, Bool.false_eq_true, if_false, if_true,
        ite_true, ite_false, howner]
      refine ⟨_, rfl, ?_⟩
      simp [notify_user_db_eq, NotificationService.notify_task_updated,
        replaceTask, howner]
    · simp only [TaskService.update_task, htask, hmod, hassign,
        ActivityService.log, henv, Bool.false_eq_true, if_false, if_true,
        ite_true, ite_false, howner]
      refine ⟨_, rfl, ?_⟩
      simp [replaceTask, howner]
  · by_cases hc : some v ≠ task.assigned_to_id ∧ v ≠ cu.id
    · by_cases howner : task.owner_id ≠ cu.id
      · simp only [TaskService.update_task, htask, hmod, hassign,
          ActivityService.log, henv, Bool.false_eq_true, if_false, if_true,
          ite_true, ite_false, hc, howner]
        refine ⟨_, rfl, ?_⟩
        simp [notify_user_db_eq, NotificationService.notify_task_updated,
          NotificationService.notify_task_assigned, replaceTask, hc, howner]
      · simp only [TaskService.update_task, htask, hmod, hassign,
          ActivityService.log, henv, Bool.false_eq_true, if_false, if_true,
          ite_true, ite_false, hc, howner]
        refine ⟨_, rfl, ?_⟩
        simp [notify_user_db_eq, NotificationService.notify_task_assigned,
          replaceTask, hc, howner]
    · by_cases howner : task.owner_id ≠ cu.id
      · simp only [TaskService.update_task, htask, hmod, hassign,
          ActivityService.log, henv, Bool.false_eq_true, if_false, if_true,
          ite_true, ite_false, hc, howner]
        refine ⟨_, rfl, ?_⟩
        simp [notify_user_db_eq, NotificationService.notify_task_updated,
          replaceTask, hc, howner]
      · simp only [TaskService.update_task, htask, hmod, hassign,
          ActivityService.log, henv, Bool.false_eq_true, if_false, if_true,
          ite_true, ite_false, hc, howner]
        refine ⟨_, rfl, ?_⟩
        simp [replaceTask, hc, howner]

/-- Witness for C10: an admin (id 5) assigns user 7 to task 100 owned by
user 1; both the task_assigned row (to 7) and the task_updated row (to
the owner 1) are appended, in that order. -/
theorem update_task_notification_conditions_witness :
    ∃ s5, TaskService.update_task ⟨fun _ => true, false⟩
        ⟨⟨[], [], [],
          [⟨100, "x", none, TaskStatus.pending, TaskPriority.medium, none, 1,
            none, none, false, 0⟩], [], [], 50⟩, ⟨[]⟩⟩
        100 { assigned_to_id := some 7, assigned_to_id_set := true }
        ⟨5, "boss", UserRole.admin⟩ =
        Except.ok (s5,
          ⟨100, "x", none, TaskStatus.pending, TaskPriority.medium, none, 1,
            some 7, none, false, 0⟩) ∧
      s5.db.notifications =
        [⟨50, 7, "boss assigned you to task: x", "task_assigned", some 100, false⟩,
         ⟨51, 1, "boss updated task: x", "task_updated", some 100, false⟩] := by
  obtain ⟨s5, h1, h2⟩ := update_task_notification_conditions
    ⟨fun _ => true, false⟩
    ⟨⟨[], [], [],
      [⟨100, "x", none, TaskStatus.pending, TaskPriority.medium, none, 1,
        none, none, false, 0⟩], [], [], 50⟩, ⟨[]⟩⟩
    100
    ⟨100, "x", none, TaskStatus.pending, TaskPriority.medium, none, 1,
      none, none, false, 0⟩
    { assigned_to_id := some 7, assigned_to_id_set := true }
    ⟨5, "boss", UserRole.admin⟩ rfl rfl rfl
  refine ⟨s5, ?_, ?_⟩
  · exact h1
  · rw [h2]
    rfl

-- ── Connection-registry lemmas ────────────────────────────────────────────

/-- find?/cons step with the predicate and head given explicitly. -/
theorem find?_cons_pos2 (p : Nat × List HandleId → Bool) (a : Nat × List HandleId)
    (l : List (Nat × List HandleId)) (h : p a = true) :
    List.find? p (a :: l) = some a := List.find?_cons_of_pos l h

/-- find?/cons step (negative case) with everything given explicitly. -/
theorem find?_cons_neg2 (p : Nat × List HandleId → Bool) (a : Nat × List HandleId)
    (l : List (Nat × List HandleId)) (h : p a = false) :
    List.find? p (a :: l) = List.find? p l := by
  apply List.find?_cons_of_neg
  simp [h]

/-- filter/cons step (positive case) with everything given explicitly. -/
theorem filter_cons_pos2 (p : Nat × List HandleId → Bool) (a : Nat × List HandleId)
    (l : List (Nat × List HandleId)) (h : p a = true) :
    List.filter p (a :: l) = a :: List.filter p l := List.filter_cons_of_pos h

/-- filter/cons step (negative case) with everything given explicitly. -/
theorem filter_cons_neg2 (p : Nat × List HandleId → Bool) (a : Nat × List HandleId)
    (l : List (Nat × List HandleId)) (h : p a = false) :
    List.filter p (a :: l) = List.filter p l :=
  List.filter_cons_of_neg (by simp [h])

/-- find? after a key-preserving update of the uid entry. -/
theorem find?_key_update (uid : Nat) (g : Nat × List HandleId → List HandleId)
    (L : List (Nat × List HandleId)) :
    (L.map (fun p => if p.1 == uid then (p.1, g p) else p)).find?
        (fun p => p.1 == uid) =
      (L.find? (fun p => p.1 == uid)).map (fun p => (p.1, g p)) := by
  induction L with
  | nil => rfl
  | cons q L ih =>
      cases hq : (q.1 == uid) with
      | true =>
          rw [List.map_cons, if_pos hq,
            find?_cons_pos2 (fun p => p.1 == uid) (q.1, g q) _ hq,
            find?_cons_pos2 (fun p => p.1 == uid) q L hq]
          rfl
      | false =>
          rw [List.map_cons, if_neg (by simp [hq]),
            find?_cons_neg2 (fun p => p.1 == uid) q _ hq,
            find?_cons_neg2 (fun p => p.1 == uid) q L hq]
          exact ih

/-- A key-preserving update of the uid entry leaves other keys alone. -/
theorem find?_key_update_other (uid v : Nat) (hv : v ≠ uid)
    (g : Nat × List HandleId → List HandleId) (L : List (Nat × List HandleId)) :
    (L.map (fun p => if p.1 == uid then (p.1, g p) else p)).find?
        (fun p => p.1 == v) =
      L.find? (fun p => p.1 == v) := by
  induction L with
  | nil => rfl
  | cons q L ih =>
      cases hq : (q.1 == uid) with
      | true =>
          have hq1 : q.1 = uid := by simpa using hq
          have hqv : (q.1 == v) = false := by simp [hq1, Ne.symm hv]
          rw [List.map_cons, if_pos hq,
            find?_cons_neg2 (fun p => p.1 == v) (q.1, g q) _ hqv,
            find?_cons_neg2 (fun p => p.1 == v) q L hqv]
          exact ih
      | false =>
          cases hqv : (q.1 == v) with
          | true =>
              rw [List.map_cons, if_neg (by simp [hq]),
                find?_cons_pos2 (fun p => p.1 == v) q _ hqv,
                find?_cons_pos2 (fun p => p.1 == v) q L hqv]
          | false =>
              rw [List.map_cons, if_neg (by simp [hq]),
                find?_cons_neg2 (fun p => p.1 == v) q _ hqv,
                find?_cons_neg2 (fun p => p.1 == v) q L hqv]
              exact ih

/-- Deleting the uid entry makes the uid lookup fail. -/
theorem find?_filter_uid (uid : Nat) (L : List (Nat × List HandleId)) :
    (L.filter (fun p => !(p.1 == uid))).find? (fun p => p.1 == uid) = none := by
  rw [List.find?_eq_none]
  intro x hx
  rw [List.mem_filter] at hx
  simpa using hx.2

/-- Deleting the uid entry leaves other keys alone. -/
theorem find?_filter_other (uid v : Nat) (hv : v ≠ uid)
    (L : List (Nat × List HandleId)) :
    (L.filter (fun p => !(p.1 == uid))).find? (fun p => p.1 == v) =
      L.find? (fun p => p.1 == v) := by
  induction L with
  | nil => rfl
  | cons q L ih =>
      cases hq : (q.1 == uid) with
      | true =>
          have hq1 : q.1 = uid := by simpa using hq
          have hqv : (q.1 == v) = false := by simp [hq1, Ne.symm hv]
          rw [filter_cons_neg2 (fun p => !(p.1 == uid)) q L (by simp [hq]),
            find?_cons_neg2 (fun p => p.1 == v) q L hqv]
          exact ih
      | false =>
          rw [filter_cons_pos2 (fun p => !(p.1 == uid)) q L (by simp [hq])]
          cases hqv : (q.1 == v) with
          | true =>
              rw [find?_cons_pos2 (fun p => p.1 == v) q _ hqv,
                find?_cons_pos2 (fun p => p.1 == v) q L hqv]
          | false =>
              rw [find?_cons_neg2 (fun p => p.1 == v) q _ hqv,
                find?_cons_neg2 (fun p => p.1 == v) q L hqv]
              exact ih

/-- disconnect on an absent uid entry is a no-op. -/
theorem disconnect_lookup_none (cm : ConnectionManager) (ws : HandleId)
    (uid : Nat) (h : cm.lookup uid = none) : cm.disconnect ws uid = cm := by
  unfold ConnectionManager.disconnect
  rw [h]

/-- The uid entry after a disconnect: the first occurrence of the handle
is erased, and the entry disappears when that leaves it empty. -/
theorem disconnect_lookup_self (cm : ConnectionManager) (ws : HandleId)
    (uid : Nat) (l : List HandleId) (h : cm.lookup uid = some l) :
    (cm.disconnect ws uid).lookup uid =
      (if (l.erase ws).isEmpty then none else some (l.erase ws)) := by
  have hfind : ∃ p, cm.connections.find? (fun p => p.1 == uid) = some p := by
    unfold ConnectionManager.lookup at h
    cases hf : cm.connections.find? (fun p => p.1 == uid) with
    | none => rw [hf] at h; cases h
    | some p => exact ⟨p, rfl⟩
  obtain ⟨p, hp⟩ := hfind
  simp only [ConnectionManager.disconnect, h]
  by_cases he : (l.erase ws).isEmpty = true
  · rw [if_pos he, if_pos he]
    unfold ConnectionManager.lookup
    rw [find?_filter_uid]
    rfl
  · rw [if_neg he, if_neg he]
    unfold ConnectionManager.lookup
    rw [find?_key_update uid (fun _ => l.erase ws), hp]
    rfl

/-- A disconnect of the uid entry leaves other keys alone. -/
theorem disconnect_lookup_other (cm : ConnectionManager) (ws : HandleId)
    (uid v : Nat) (hv : v ≠ uid) :
    (cm.disconnect ws uid).lookup v = cm.lookup v := by
  cases h : cm.lookup uid with
  | none => rw [disconnect_lookup_none cm ws uid h]
  | some l =>
      simp only [ConnectionManager.disconnect, h]
      by_cases he : (l.erase ws).isEmpty = true
      · rw [if_pos he]
        unfold ConnectionManager.lookup
        rw [find?_filter_other uid v hv]
      · rw [if_neg he]
        unfold ConnectionManager.lookup
        rw [find?_key_update_other uid v hv (fun _ => l.erase ws)]

/-- Folding disconnects over an absent uid entry is a no-op. -/
theorem foldl_disconnect_of_none (uid : Nat) (ds : List HandleId) :
    ∀ cm : ConnectionManager, cm.lookup uid = none →
      ds.foldl (fun c w => c.disconnect w uid) cm = cm := by
  induction ds with
  | nil => intro cm _; rfl
  | cons d ds ih =>
      intro cm h
      rw [List.foldl_cons, disconnect_lookup_none cm d uid h, ih cm h]

/-- Folding erases over the empty list stays empty. -/
theorem foldl_erase_nil (ds : List HandleId) :
    ds.foldl (fun acc w => acc.erase w) ([] : List HandleId) = [] := by
  induction ds with
  | nil => rfl
  | cons d ds ih => rw [List.foldl_cons]; exact ih

/-- Folding disconnects over the uid entry: the entry evolves by the
corresponding erasures and disappears exactly when it empties; other
entries are untouched. -/
theorem foldl_disconnect_lookup (uid : Nat) (ds : List HandleId) :
    ∀ (cm : ConnectionManager) (l : List HandleId),
      cm.lookup uid = some l → l ≠ [] →
      ((ds.foldl (fun c w => c.disconnect w uid) cm).lookup uid =
        (if (ds.foldl (fun acc w => acc.erase w) l).isEmpty then none
         else some (ds.foldl (fun acc w => acc.erase w) l))) ∧
      (∀ v, v ≠ uid →
        (ds.foldl (fun c w => c.disconnect w uid) cm).lookup v = cm.lookup v) := by
  induction ds with
  | nil =>
      intro cm l h hl
      constructor
      · rw [List.foldl_nil, List.foldl_nil, h,
          if_neg (by simpa [List.isEmpty_iff] using hl)]
      · intro v _
        rfl
  | cons d ds ih =>
      intro cm l h hl
      by_cases he : (l.erase d).isEmpty = true
      · have h1 : (cm.disconnect d uid).lookup uid = none := by
          rw [disconnect_lookup_self cm d uid l h, if_pos he]
        have h2 := foldl_disconnect_of_none uid ds (cm.disconnect d uid) h1
        constructor
        · rw [List.foldl_cons, h2, h1, List.foldl_cons]
          have he2 : l.erase d = [] := by simpa [List.isEmpty_iff] using he
          rw [he2, foldl_erase_nil]
          rfl
        · intro v hv
          rw [List.foldl_cons, h2, disconnect_lookup_other cm d uid v hv]
      · have hne : l.erase d ≠ [] := by simpa [List.isEmpty_iff] using he
        have h1 : (cm.disconnect d uid).lookup uid = some (l.erase d) := by
          rw [disconnect_lookup_self cm d uid l h, if_neg he]
        obtain ⟨ha, hb⟩ := ih (cm.disconnect d uid) (l.erase d) h1 hne
        constructor
        · rw [List.foldl_cons, ha, List.foldl_cons]
        · intro v hv
          rw [List.foldl_cons, hb v hv, disconnect_lookup_other cm d uid v hv]

/-- Erasing elements that all differ from the head leaves the head. -/
theorem foldl_erase_of_head (x : HandleId) :
    ∀ ds : List HandleId, (∀ a ∈ ds, x ≠ a) →
      ∀ xs : List HandleId,
        ds.foldl (fun acc w => acc.erase w) (x :: xs) =
          x :: ds.foldl (fun acc w => acc.erase w) xs := by
  intro ds
  induction ds with
  | nil => intro _ xs; rfl
  | cons d ds ih =>
      intro hx xs
      have hxd : (x == d) = false := by
        simp only [beq_eq_false_iff_ne, ne_eq]
        exact hx d (List.mem_cons_self d ds)
      rw [List.foldl_cons, List.foldl_cons, List.erase_cons, hxd,
        if_neg (by simp)]
      exact ih (fun a ha => hx a (List.mem_cons_of_mem d ha)) (xs.erase d)

/-- filter/cons step on handle lists (positive case), fully explicit. -/
theorem filterh_cons_pos (p : HandleId → Bool) (a : HandleId)
    (l : List HandleId) (h : p a = true) :
    List.filter p (a :: l) = a :: List.filter p l := List.filter_cons_of_pos h

/-- filter/cons step on handle lists (negative case), fully explicit. -/
theorem filterh_cons_neg (p : HandleId → Bool) (a : HandleId)
    (l : List HandleId) (h : p a = false) :
    List.filter p (a :: l) = List.filter p l :=
  List.filter_cons_of_neg (by simp [h])

/-- Disconnecting exactly the dead handles (in order) from the full list
keeps exactly the live ones: the send loop is self-healing. -/
theorem filter_foldl_erase (p : HandleId → Bool) :
    ∀ l : List HandleId,
      (l.filter (fun a => !p a)).foldl (fun acc w => acc.erase w) l =
        l.filter p := by
  intro l
  induction l with
  | nil => rfl
  | cons x xs ih =>
      cases hp : p x with
      | true =>
          rw [filterh_cons_neg (fun a => !p a) x xs (by simp [hp])]
          have hnex : ∀ a ∈ xs.filter (fun a => !p a), x ≠ a := by
            intro a ha hxa
            rw [List.mem_filter] at ha
            rw [← hxa] at ha
            simp [hp] at ha
          rw [foldl_erase_of_head x (xs.filter (fun a => !p a)) hnex xs, ih,
            filterh_cons_pos p x xs hp]
      | false =>
          rw [filterh_cons_pos (fun a => !p a) x xs (by simp [hp]),
            List.foldl_cons, List.erase_cons_head, ih,
            filterh_cons_neg p x xs hp]

/-- Claim C6: send_personal attempts delivery on every live handle of the
user; with zero handles it is a no-op on the registry; afterwards the
user's entry holds exactly the handles whose send succeeded (the failed
ones were disconnected as a side effect, and the entry is gone when all
sends failed); other users' entries are untouched; and the user stays
connected iff at least one send succeeded.  The embedding of the send
loop is a total function — every send exception is caught, so no error
reaches the caller. -/
theorem send_personal_semantics (cm : ConnectionManager)
    (sendOk : HandleId → Bool) (uid : Nat) (hne : NoEmptyEntries cm) :
    ((cm.send_personal_message sendOk uid).2 = (cm.lookup uid).getD []) ∧
    ((cm.lookup uid).getD [] = [] →
      (cm.send_personal_message sendOk uid).1 = cm) ∧
    ((cm.send_personal_message sendOk uid).1.lookup uid =
      (if (((cm.lookup uid).getD []).filter sendOk).isEmpty then none
       else some (((cm.lookup uid).getD []).filter sendOk))) ∧
    (∀ v, v ≠ uid →
      (cm.send_personal_message sendOk uid).1.lookup v = cm.lookup v) ∧
    ((cm.send_personal_message sendOk uid).1.is_connected uid =
      !(((cm.lookup uid).getD []).filter sendOk).isEmpty) := by
  cases h : cm.lookup uid with
  | none =>
      have hsend : cm.send_personal_message sendOk uid = (cm, []) := by
        simp [ConnectionManager.send_personal_message, h]
      refine ⟨?_, ?_, ?_, ?_, ?_⟩
      · simp [hsend, h]
      · intro _
        rw [hsend]
      · simp [hsend, h]
      · intro v _
        rw [hsend]
      · simp [hsend, h, ConnectionManager.is_connected]
  | some l =>
      have hl : l ≠ [] := by
        unfold ConnectionManager.lookup at h
        cases hf : cm.connections.find? (fun p => p.1 == uid) with
        | none => rw [hf] at h; cases h
        | some q =>
            rw [hf] at h
            have hq2 : q.2 = l := by simpa using h
            rw [← hq2]
            exact hne q (List.mem_of_find?_eq_some hf)
      have hie : ¬ (l.isEmpty = true) := by simpa [List.isEmpty_iff] using hl
      obtain ⟨ha, hb⟩ := foldl_disconnect_lookup uid
        (l.filter (fun ws => !sendOk ws)) cm l h hl
      rw [filter_foldl_erase sendOk l] at ha
      have hic : ∀ cmx : ConnectionManager,
          cmx.lookup uid =
            (if (l.filter sendOk).isEmpty then none
             else some (l.filter sendOk)) →
          cmx.is_connected uid = !(l.filter sendOk).isEmpty := by
        intro cmx hx
        unfold ConnectionManager.is_connected
        rw [hx]
        by_cases hfe : (l.filter sendOk).isEmpty = true
        · simp [hfe]
        · simp [hfe]
      simp only [ConnectionManager.send_personal_message, h, Option.getD_some,
        if_neg hie]
      exact ⟨by trivial, fun hc => absurd hc hl, ha, fun v hv => hb v hv, hic _ ha⟩

/-- Witness for C6: user 7 has two live handles; handle 1 fails and is
disconnected, handle 2 succeeds and stays, so the user remains
connected. -/
theorem send_personal_semantics_witness :
    ((ConnectionManager.mk [(7, [1, 2])]).send_personal_message
        (fun w => w == 2) 7).2 = [1, 2] ∧
    ((ConnectionManager.mk [(7, [1, 2])]).send_personal_message
        (fun w => w == 2) 7).1.lookup 7 = some [2] ∧
    ((ConnectionManager.mk [(7, [1, 2])]).send_personal_message
        (fun w => w == 2) 7).1.is_connected 7 = true := by
  have h := send_personal_semantics ⟨[(7, [1, 2])]⟩ (fun w => w == 2) 7
    (by unfold NoEmptyEntries; decide)
  refine ⟨?_, ?_, ?_⟩
  · rw [h.1]
    rfl
  · rw [h.2.2.1]
    rfl
  · rw [h.2.2.2.2]
    rfl

/-- A found entry is non-empty under the invariant. -/
theorem lookup_some_ne_nil (cm : ConnectionManager) (uid : Nat)
    (l : List HandleId) (hne : NoEmptyEntries cm) (h : cm.lookup uid = some l) :
    l ≠ [] := by
  unfold ConnectionManager.lookup at h
  cases hf : cm.connections.find? (fun p => p.1 == uid) with
  | none => rw [hf] at h; cases h
  | some q =>
      rw [hf] at h
      have hq2 : q.2 = l := by simpa using h
      rw [← hq2]
      exact hne q (List.mem_of_find?_eq_some hf)

/-- connect preserves the no-empty-entries invariant. -/
theorem connect_no_empty (cm : ConnectionManager) (ws : HandleId) (uid : Nat)
    (h : NoEmptyEntries cm) : NoEmptyEntries (cm.connect ws uid) := by
  intro p hp
  simp only [ConnectionManager.connect] at hp
  by_cases hany : (cm.connections.any (fun p => p.1 == uid)) = true
  · rw [if_pos hany] at hp
    rw [List.mem_map] at hp
    obtain ⟨q, hq, hpq⟩ := hp
    by_cases hqu : (q.1 == uid) = true
    · rw [← hpq, if_pos hqu]
      simp
    · rw [← hpq, if_neg hqu]
      exact h q hq
  · rw [if_neg hany] at hp
    rw [List.mem_map] at hp
    obtain ⟨q, hq, hpq⟩ := hp
    rw [List.mem_append] at hq
    rcases hq with hq | hq
    · by_cases hqu : (q.1 == uid) = true
      · rw [← hpq, if_pos hqu]
        simp
      · rw [← hpq, if_neg hqu]
        exact h q hq
    · have hq2 : q = (uid, []) := by simpa using hq
      subst hq2
      rw [← hpq, if_pos (by simp)]
      simp

/-- disconnect preserves the no-empty-entries invariant. -/
theorem disconnect_no_empty (cm : ConnectionManager) (ws : HandleId)
    (uid : Nat) (h : NoEmptyEntries cm) :
    NoEmptyEntries (cm.disconnect ws uid) := by
  cases hl : cm.lookup uid with
  | none =>
      rw [disconnect_lookup_none cm ws uid hl]
      exact h
  | some l =>
      intro p hp
      simp only [ConnectionManager.disconnect, hl] at hp
      by_cases he : (l.erase ws).isEmpty = true
      · rw [if_pos he] at hp
        exact h p (List.mem_of_mem_filter hp)
      · rw [if_neg he] at hp
        rw [List.mem_map] at hp
        obtain ⟨q, hq, hpq⟩ := hp
        by_cases hqu : (q.1 == uid) = true
        · rw [← hpq, if_pos hqu]
          simpa [List.isEmpty_iff] using he
        · rw [← hpq, if_neg hqu]
          exact h q hq

/-- A fold of disconnects preserves the no-empty-entries invariant. -/
theorem foldl_disconnect_no_empty {β : Type} (f : β → HandleId) (g : β → Nat)
    (ds : List β) : ∀ cm : ConnectionManager, NoEmptyEntries cm →
      NoEmptyEntries (ds.foldl (fun c b => c.disconnect (f b) (g b)) cm) := by
  induction ds with
  | nil => intro cm h; exact h
  | cons d ds ih =>
      intro cm h
      rw [List.foldl_cons]
      exact ih _ (disconnect_no_empty cm (f d) (g d) h)

/-- send_personal preserves the no-empty-entries invariant. -/
theorem send_personal_no_empty (cm : ConnectionManager)
    (sendOk : HandleId → Bool) (uid : Nat) (h : NoEmptyEntries cm) :
    NoEmptyEntries (cm.send_personal_message sendOk uid).1 := by
  simp only [ConnectionManager.send_personal_message]
  by_cases hc : (((cm.lookup uid).getD []).isEmpty) = true
  · rw [if_pos hc]
    exact h
  · rw [if_neg hc]
    exact foldl_disconnect_no_empty (fun w => w) (fun _ => uid) _ cm h

/-- broadcast preserves the no-empty-entries invariant. -/
theorem broadcast_no_empty (cm : ConnectionManager)
    (sendOk : HandleId → Bool) (h : NoEmptyEntries cm) :
    NoEmptyEntries (cm.broadcast sendOk) := by
  unfold ConnectionManager.broadcast
  exact foldl_disconnect_no_empty Prod.fst Prod.snd _ cm h

/-- Claim C7: the no-empty-entries invariant holds after each registry
operation (connect, disconnect, send_personal, broadcast); is_connected
is true exactly when the user has an entry with at least one live handle;
and from a disconnected state one connect makes is_connected true while
the matching disconnect makes it false again. -/
theorem registry_no_empty_entries (cm : ConnectionManager) (ws : HandleId)
    (uid : Nat) (sendOk : HandleId → Bool) (h : NoEmptyEntries cm) :
    NoEmptyEntries (cm.connect ws uid) ∧
    NoEmptyEntries (cm.disconnect ws uid) ∧
    NoEmptyEntries (cm.send_personal_message sendOk uid).1 ∧
    NoEmptyEntries (cm.broadcast sendOk) ∧
    (cm.is_connected uid = true ↔ ∃ l, cm.lookup uid = some l ∧ l ≠ []) ∧
    (cm.is_connected uid = false →
      (cm.connect ws uid).is_connected uid = true ∧
      ((cm.connect ws uid).disconnect ws uid).is_connected uid = false) := by
  refine ⟨connect_no_empty cm ws uid h, disconnect_no_empty cm ws uid h,
    send_personal_no_empty cm sendOk uid h, broadcast_no_empty cm sendOk h,
    ?_, ?_⟩
  · unfold ConnectionManager.is_connected
    cases hl : cm.lookup uid with
    | none => simp
    | some l => simp [List.isEmpty_iff]
  · intro hfalse
    have hnone : cm.lookup uid = none := by
      cases hl : cm.lookup uid with
      | none => rfl
      | some l =>
          exfalso
          have hlne : l ≠ [] := lookup_some_ne_nil cm uid l h hl
          unfold ConnectionManager.is_connected at hfalse
          rw [hl] at hfalse
          simp [List.isEmpty_iff, hlne] at hfalse
    have hfind : cm.connections.find? (fun p => p.1 == uid) = none := by
      unfold ConnectionManager.lookup at hnone
      cases hf : cm.connections.find? (fun p => p.1 == uid) with
      | none => rfl
      | some q => rw [hf] at hnone; cases hnone
    have hany : (cm.connections.any (fun p => p.1 == uid)) = false := by
      rw [List.any_eq_false]
      rw [List.find?_eq_none] at hfind
      exact hfind
    have hcl : (cm.connect ws uid).lookup uid = some [ws] := by
      simp only [ConnectionManager.connect, hany, Bool.false_eq_true, if_false]
      unfold ConnectionManager.lookup
      rw [find?_key_update uid (fun p => p.2 ++ [ws]), List.find?_append, hfind]
      simp [List.find?_cons]
    constructor
    · unfold ConnectionManager.is_connected
      rw [hcl]
      rfl
    · have hdl : ((cm.connect ws uid).disconnect ws uid).lookup uid = none := by
        rw [disconnect_lookup_self (cm.connect ws uid) ws uid [ws] hcl]
        simp
      unfold ConnectionManager.is_connected
      rw [hdl]

/-- Witness for C7: from a registry holding only user 5, user 7 is
disconnected; one connect of handle 3 makes user 7 connected and the
matching disconnect makes it false again (and the invariant holds). -/
theorem registry_no_empty_entries_witness :
    NoEmptyEntries (ConnectionManager.mk [(5, [9])]) ∧
    ((ConnectionManager.mk [(5, [9])]).connect 3 7).is_connected 7 = true ∧
    (((ConnectionManager.mk [(5, [9])]).connect 3 7).disconnect 3 7).is_connected
      7 = false := by
  have h := registry_no_empty_entries ⟨[(5, [9])]⟩ 3 7 (fun _ => true)
    (by unfold NoEmptyEntries; decide)
  obtain ⟨hc, hd⟩ := h.2.2.2.2.2 (by decide)
  exact ⟨by unfold NoEmptyEntries; decide, hc, hd⟩

-- ── Task-listing lemmas ───────────────────────────────────────────────────

/-- Membership in the mapped ids of a filtered team list, as an `any`. -/
theorem filter_map_id_contains (tid : Nat) (pred : Team → Bool)
    (L : List Team) :
    ((L.filter pred).map (fun t => t.id)).contains tid =
      L.any (fun tm => tm.id == tid && pred tm) := by
  rw [Bool.eq_iff_iff, List.contains_iff_exists_mem_beq, List.any_eq_true]
  constructor
  · rintro ⟨x, hx, hbeq⟩
    rw [List.mem_map] at hx
    obtain ⟨tm, htm, hid⟩ := hx
    rw [List.mem_filter] at htm
    refine ⟨tm, htm.1, ?_⟩
    have htid : tm.id = tid := by
      have h1 : tid = x := by simpa using hbeq
      rw [hid, ← h1]
    simp [htid, htm.2]
  · rintro ⟨tm, htm, hx⟩
    rw [Bool.and_eq_true] at hx
    have hid : tm.id = tid := by simpa using hx.1
    refine ⟨tm.id, ?_, by simp [hid]⟩
    rw [List.mem_map]
    refine ⟨tm, ?_, rfl⟩
    rw [List.mem_filter]
    exact ⟨htm, hx.2⟩

/-- The source guard `if team_ids:` is redundant for containment: a
non-empty check conjoined with containment equals containment. -/
theorem isEmpty_and_contains (tid : Nat) (pred : Team → Bool)
    (L : List Team) :
    (!((L.filter pred).map (fun t => t.id)).isEmpty &&
        ((L.filter pred).map (fun t => t.id)).contains tid) =
      ((L.filter pred).map (fun t => t.id)).contains tid := by
  cases hc : ((L.filter pred).map (fun t => t.id)).contains tid with
  | false => simp
  | true =>
      rw [Bool.and_true]
      rw [List.contains_iff_exists_mem_beq] at hc
      obtain ⟨x, hx, _⟩ := hc
      simp only [Bool.not_eq_true', List.isEmpty_eq_false]
      exact List.ne_nil_of_mem hx

/-- The visibility filter that list_tasks passes to the query equals the
owned-or-member visibility predicate. -/
theorem visibilityOk_spec (db : DB) (u : User) (t : Task) :
    visibilityOk (some u.id) (get_user_team_ids db u.id) t =
      specVisibleOwnedOrMember db u t := by
  unfold visibilityOk specVisibleOwnedOrMember get_user_team_ids
  cases ht : t.team_id with
  | none => simp
  | some tid =>
      rw [isEmpty_and_contains tid _ db.teams, filter_map_id_contains tid _ db.teams]

/-- The row query and the count query apply the same filters. -/
theorem queryMatches_eq_countMatches (f : TaskFilter) (own : Option Nat)
    (team_ids : List Nat) (t : Task) :
    queryMatches f own team_ids t = countMatches f own team_ids t := rfl

/-- The full non-admin query predicate splits into the owned-or-member
visibility predicate and the plain filter criteria. -/
theorem queryMatches_split (db : DB) (f : TaskFilter) (u : User) (t : Task) :
    queryMatches f (some u.id) (get_user_team_ids db u.id) t =
      (specVisibleOwnedOrMember db u t && plainFilterMatches f t) := by
  rw [← visibilityOk_spec db u t]
  simp only [queryMatches, plainFilterMatches, visibilityOk, Bool.true_and,
    Bool.and_assoc]

/-- Claim C8 (counterexample): user 1 owns team 10 but holds no
membership row in it; task 100 (owned by user 2, in team 10) is neither
owned by user 1, nor assigned to user 1, nor in any team user 1 holds a
membership in — yet the non-admin listing returns it, with it counted in
the total. -/
theorem list_tasks_includes_owned_team_without_membership :
    TaskService.list_tasks
        ⟨[], [⟨10, "t", 1⟩], [],
          [⟨100, "x", none, TaskStatus.pending, TaskPriority.medium, none, 2,
            none, some 10, false, 0⟩], [], [], 0⟩
        {} ⟨1, "a", UserRole.user⟩ =
      ([⟨100, "x", none, TaskStatus.pending, TaskPriority.medium, none, 2,
          none, some 10, false, 0⟩], 1) ∧
    specVisibleByMembership
        ⟨[], [⟨10, "t", 1⟩], [],
          [⟨100, "x", none, TaskStatus.pending, TaskPriority.medium, none, 2,
            none, some 10, false, 0⟩], [], [], 0⟩
        ⟨1, "a", UserRole.user⟩
        ⟨100, "x", none, TaskStatus.pending, TaskPriority.medium, none, 2,
          none, some 10, false, 0⟩ = false ∧
    (⟨1, "a", UserRole.user⟩ : User).role ≠ UserRole.admin := by
  refine ⟨?_, by decide, by decide⟩
  rfl

/-- Claim C8 (amended): for a non-admin actor the returned page and the
total are computed — at the query level, by the same predicate — over
exactly the tasks that are owned by the actor, assigned to the actor, or
belong to a team the actor owns or holds membership in, intersected with
the other filters; for an admin both are computed over the unscoped
filtered set. -/
theorem list_tasks_scoped_characterization (db : DB) (f : TaskFilter)
    (u : User) :
    (u.role ≠ UserRole.admin →
      (TaskService.list_tasks db f u).1 =
        ((db.tasks.filter (fun t => specVisibleOwnedOrMember db u t &&
            plainFilterMatches f t)).drop ((f.page - 1) * f.size)).take f.size ∧
      (TaskService.list_tasks db f u).2 =
        (db.tasks.filter (fun t => specVisibleOwnedOrMember db u t &&
          plainFilterMatches f t)).length) ∧
    (u.role = UserRole.admin →
      (TaskService.list_tasks db f u).1 =
        ((db.tasks.filter (fun t => plainFilterMatches f t)).drop
          ((f.page - 1) * f.size)).take f.size ∧
      (TaskService.list_tasks db f u).2 =
        (db.tasks.filter (fun t => plainFilterMatches f t)).length) := by
  constructor
  · intro hadm
    have hrole : (u.role == UserRole.admin) = false := beq_eq_false_iff_ne.mpr hadm
    unfold TaskService.list_tasks
    rw [hrole]
    simp only [Bool.false_eq_true, if_false]
    unfold list_with_filters
    constructor
    · rw [List.filter_congr (fun t _ => queryMatches_split db f u t)]
    · rw [List.filter_congr
        (fun t _ => (queryMatches_eq_countMatches f _ _ t).symm),
        List.filter_congr (fun t _ => queryMatches_split db f u t)]
  · intro hadm
    have hrole : (u.role == UserRole.admin) = true := by simp [hadm]
    unfold TaskService.list_tasks
    rw [hrole]
    simp only [if_true]
    unfold list_with_filters
    constructor
    · rfl
    · rfl

/-- Witness for the amended C8: in the counterexample state, the
characterization instantiates to the returned page and total. -/
theorem list_tasks_scoped_characterization_witness :
    (TaskService.list_tasks
        ⟨[], [⟨10, "t", 1⟩], [],
          [⟨100, "x", none, TaskStatus.pending, TaskPriority.medium, none, 2,
            none, some 10, false, 0⟩], [], [], 0⟩
        {} ⟨1, "a", UserRole.user⟩).2 =
      (List.filter
        (fun t => specVisibleOwnedOrMember
            ⟨[], [⟨10, "t", 1⟩], [],
              [⟨100, "x", none, TaskStatus.pending, TaskPriority.medium, none,
                2, none, some 10, false, 0⟩], [], [], 0⟩
            ⟨1, "a", UserRole.user⟩ t &&
          plainFilterMatches {} t)
        [⟨100, "x", none, TaskStatus.pending, TaskPriority.medium, none, 2,
          none, some 10, false, 0⟩]).length := by
  exact ((list_tasks_scoped_characterization
    ⟨[], [⟨10, "t", 1⟩], [],
      [⟨100, "x", none, TaskStatus.pending, TaskPriority.medium, none, 2,
        none, some 10, false, 0⟩], [], [], 0⟩
    {} ⟨1, "a", UserRole.user⟩).1 (by decide)).2

end TaskMaster
